import Mathlib

/-!
Shallow embedding of the hybrid retrieval / reranking core of DocChat
(`app/retriever.py`) together with proofs about it.

Modelling conventions:
* Python strings are modelled as `List Char` (`Text`); `len` on a string is
  the number of code points, which matches `List.length` on `List Char`.
* Python floats are modelled exactly over `ℚ` where the source arithmetic is
  rational (the reranker), and over `ℝ` where `math.log` appears (BM25);
  the `ℝ`-valued definitions are `noncomputable` only because of `Real.log`
  and the classical order on `ℝ`.
* `list[:k]` (including negative `k`) is modelled by `pySlice`.
* Python's stable `list.sort(key=lambda x: x[0], reverse=True)` applied to a
  list whose second components are strictly increasing positions is modelled
  by sorting with the linear order "score descending, then position
  ascending" (`keyLe`): a stable descending sort of such a list is the unique
  permutation sorted by that linear order, so any correct sorting algorithm
  (here `List.insertionSort`) computes it.
-/

abbrev Text : Type := List Char

/-- Whitespace as recognised by Python's `str.strip()` for the ASCII range
(the corpus and all inputs considered here contain no exotic Unicode
whitespace). A single character `c` has truthy `c.strip()` iff `¬ isPyWs c`. -/
def isPyWs (c : Char) : Bool :=
  c == ' ' || c == '\t' || c == '\n' || c == '\r' || c == '\x0b' || c == '\x0c'

/-- `[char for char in text if char.strip()]` — the character-level tokenizer
(`BM25Retriever._tokenize`, also inlined in `Reranker._compute_semantic_score`). -/
def tokenize (t : Text) : Text := t.filter (fun c => !(isPyWs c))

/-- Number of words of Python's `text.split()` (split on runs of whitespace,
leading/trailing whitespace ignored): the number of maximal runs of
non-whitespace characters.  The accumulator tracks (words seen so far,
currently inside a word). -/
def pyWordCount (t : Text) : ℕ :=
  (t.foldl
    (fun acc c =>
      if isPyWs c then (acc.1, false)
      else if acc.2 then acc else (acc.1 + 1, true))
    ((0 : ℕ), false)).1

/-- Python's `l[:k]` for an arbitrary (possibly negative) integer `k`. -/
def pySlice {α : Type} (k : ℤ) (l : List α) : List α :=
  if 0 ≤ k then l.take k.toNat else l.take (l.length - (-k).toNat)

/-- Python's substring test `needle in hay`. -/
def hasSubstr (needle : Text) : Text → Bool
  | [] => needle.isEmpty
  | c :: rest => needle.isPrefixOf (c :: rest) || hasSubstr needle rest

/-- A langchain `Document`: a chunk of text plus metadata that is opaque to
the retrieval core (collapsed here to one field). -/
structure Document where
  content : Text
  metadata : String
deriving DecidableEq

instance : Inhabited Document := ⟨⟨[], ""⟩⟩

/-- A document with the given content and empty metadata. -/
def mkDoc (s : String) : Document := ⟨s.data, ""⟩

section StableSort

variable {α : Type} [LinearOrder α]

/-- "p sorts no later than r": score descending, position ascending on ties.
This is the effective order of Python's stable
`sort(key=lambda x: x[0], reverse=True)` on a list whose positions `·.2`
are strictly increasing. -/
def keyLe (p r : α × ℕ) : Prop := r.1 < p.1 ∨ (p.1 = r.1 ∧ p.2 ≤ r.2)

/-- Strict version of `keyLe` (adjacent output entries with distinct
positions are related by it). -/
def keyLt (p r : α × ℕ) : Prop := r.1 < p.1 ∨ (p.1 = r.1 ∧ p.2 < r.2)

instance : DecidableRel (keyLe (α := α)) := fun p r =>
  inferInstanceAs (Decidable (r.1 < p.1 ∨ (p.1 = r.1 ∧ p.2 ≤ r.2)))

instance : IsTotal (α × ℕ) keyLe := by
  constructor
  intro p r
  rcases lt_trichotomy p.1 r.1 with h | h | h
  · exact Or.inr (Or.inl h)
  · rcases Nat.le_total p.2 r.2 with h2 | h2
    · exact Or.inl (Or.inr ⟨h, h2⟩)
    · exact Or.inr (Or.inr ⟨h.symm, h2⟩)
  · exact Or.inl (Or.inl h)

instance : IsTrans (α × ℕ) keyLe := by
  constructor
  intro p q r hpq hqr
  rcases hpq with h1 | ⟨e1, n1⟩ <;> rcases hqr with h2 | ⟨e2, n2⟩
  · exact Or.inl (h2.trans h1)
  · exact Or.inl (e2 ▸ h1)
  · exact Or.inl (e1 ▸ h2)
  · exact Or.inr ⟨e1.trans e2, n1.trans n2⟩

/-- Stable descending sort by score (see the header on modelling
`list.sort(..., reverse=True)`). -/
def sortPairs (l : List (α × ℕ)) : List (α × ℕ) := List.insertionSort keyLe l

end StableSort

namespace Reranker

/-- `Reranker.weights` — the five documented coefficients. -/
def weight_semantic_score : ℚ := 0.35

def weight_keyword_score : ℚ := 0.25

def weight_relevance_boost : ℚ := 0.2

def weight_quality_score : ℚ := 0.15

def weight_spam_penalty : ℚ := -0.5

/-- `Reranker.spam_keywords`. -/
def spam_keywords : List Text :=
  ["添加微信", "领取", "创业项目", "互联网创业", "200个",
   "货比三家", "搜一下就不会上当", "保证年收益率", "管理费用"].map String.data

/-- `set(char for char in text if char.strip())`. -/
def charSet (t : Text) : Finset Char := (tokenize t).toFinset

/-- `Reranker._compute_semantic_score`. -/
def compute_semantic_score (q c : Text) : ℚ :=
  if charSet q = ∅ then 0
  else ((charSet q ∩ charSet c).card : ℚ) / ((charSet q).card : ℚ)

/-- The fixed domain keyword list of `Reranker._compute_keyword_score`. -/
def important_keywords : List Text :=
  ["张一鸣", "创业", "字节跳动", "今日头条", "抖音", "管理", "技术"].map String.data

/-- `Reranker._compute_keyword_score`: matches in BOTH query and content,
divided by 3 and capped at 1. -/
def compute_keyword_score (q c : Text) : ℚ :=
  min (((important_keywords.filter (fun kw => hasSubstr kw q && hasSubstr kw c)).length : ℚ) / 3) 1

/-- `Reranker._compute_relevance_boost`. -/
def compute_relevance_boost (q c : Text) : ℚ :=
  min
    ((if hasSubstr "创业".data q
         && (["创业", "公司", "产品", "市场"].map String.data).any (fun w => hasSubstr w c)
      then (0.3 : ℚ) else 0)
     + (if hasSubstr "管理".data q
           && (["管理", "团队", "组织", "文化"].map String.data).any (fun w => hasSubstr w c)
        then (0.3 : ℚ) else 0)
     + (if hasSubstr "技术".data q
           && (["技术", "算法", "AI", "开发"].map String.data).any (fun w => hasSubstr w c)
        then (0.3 : ℚ) else 0)
     + (if 200 < c.length then (0.1 : ℚ) else 0))
    1

/-- `Reranker._compute_quality_score`. -/
def compute_quality_score (c : Text) : ℚ :=
  if c.length < 50 then 0.2 else if c.length < 100 then 0.5 else 0.8

/-- Number of spam keywords occurring in the content
(`sum(1 for keyword in self.spam_keywords if keyword in content)`). -/
def spamCount (c : Text) : ℕ := (spam_keywords.filter (fun kw => hasSubstr kw c)).length

/-- `Reranker._detect_spam_content`. -/
def detect_spam_content (c : Text) : ℚ :=
  if 0 < spamCount c then min 1 ((spamCount c : ℚ) * 0.3) else 0

/-- `Reranker.compute_relevance_score`: the weighted total, then
`max(0, min(total, 1.0))`. -/
def compute_relevance_score (q : Text) (d : Document) : ℚ :=
  max 0 (min
    (compute_semantic_score q d.content * weight_semantic_score
     + compute_keyword_score q d.content * weight_keyword_score
     + compute_relevance_boost q d.content * weight_relevance_boost
     + compute_quality_score d.content * weight_quality_score
     + detect_spam_content d.content * weight_spam_penalty)
    1)

/-- The `scored_docs` list of `Reranker.rerank`, with each document
represented by its position in the input list (the position is the
tie-breaking information Python's stable sort preserves). -/
def scored_docs (q : Text) (docs : List Document) : List (ℚ × ℕ) :=
  (List.range docs.length).map (fun i => (compute_relevance_score q (docs.getD i default), i))

/-- `scored_docs.sort(key=lambda x: x[0], reverse=True)`. -/
def rerankSorted (q : Text) (docs : List Document) : List (ℚ × ℕ) :=
  sortPairs (scored_docs q docs)

/-- `Reranker.rerank`. -/
def rerank (q : Text) (docs : List Document) : List Document :=
  (rerankSorted q docs).map (fun p => docs.getD p.2 default)

end Reranker

namespace BM25Retriever

/-- Default tunable `k1 = 1.5`. -/
def k1 : ℝ := 1.5

/-- Default tunable `b = 0.75`. -/
def b : ℝ := 0.75

/-- `self.vocab[t]` as built by `BM25Retriever._build_vocab`: the set of
positions of documents whose tokenization contains `t` (`defaultdict(set)`
filled by iterating over the corpus; a token is a key of `vocab` iff this
set is non-empty). -/
def vocabSet (documents : List Document) (t : Char) : Finset ℕ :=
  (Finset.range documents.length).filter
    (fun i => t ∈ tokenize (documents.getD i default).content)

/-- The document frequency `df = len(self.vocab[t])`. -/
def df (documents : List Document) (t : Char) : ℕ := (vocabSet documents t).card

/-- `self.doc_lengths = [len(doc.page_content.split()) for doc in documents]`
— note: `split()` word counts, not `_tokenize` character counts. -/
def doc_lengths (documents : List Document) : List ℕ :=
  documents.map (fun d => pyWordCount d.content)

/-- `self.avg_doc_len` (the Python construction divides by `len(documents)`
and raises `ZeroDivisionError` on an empty corpus; over `ℝ` the division is
total and the empty case is never used downstream). -/
noncomputable def avg_doc_len (documents : List Document) : ℝ :=
  ((doc_lengths documents).sum : ℝ) / (documents.length : ℝ)

/-- `BM25Retriever._compute_idf`:
`idf[t] = log((n - df + 0.5) / (df + 0.5) + 1)`, extended to every token
(the source stores it only for vocabulary keys, and only those are ever
read thanks to the `word not in self.vocab` guard). -/
noncomputable def idf (documents : List Document) (t : Char) : ℝ :=
  Real.log (((documents.length : ℝ) - (df documents t : ℝ) + 0.5)
    / ((df documents t : ℝ) + 0.5) + 1)

/-- `doc_words.count(word)` — the term frequency of `t` in document `i`. -/
def tfCount (documents : List Document) (i : ℕ) (t : Char) : ℕ :=
  (tokenize (documents.getD i default).content).count t

/-- One iteration of the query-token loop of
`BM25Retriever._compute_bm25_score`: skip tokens outside the vocabulary
(`word not in self.vocab`, i.e. `df = 0`) and tokens with zero term
frequency, otherwise add the BM25 term. -/
noncomputable def scoreStep (documents : List Document) (i : ℕ) (s : ℝ) (t : Char) : ℝ :=
  if df documents t = 0 then s
  else if tfCount documents i t = 0 then s
  else s + idf documents t * ((tfCount documents i t : ℝ) * (k1 + 1))
      / ((tfCount documents i t : ℝ)
         + k1 * (1 - b + b * ((doc_lengths documents).getD i 0 : ℝ)
             / avg_doc_len documents))

/-- `BM25Retriever._compute_bm25_score`: the loop over the tokenized query. -/
noncomputable def compute_bm25_score (documents : List Document) (q : Text) (i : ℕ) : ℝ :=
  (tokenize q).foldl (scoreStep documents i) 0

/-- The `scores` list of `BM25Retriever.retrieve` after the `score > 0`
filter, with each document represented by its corpus position. -/
noncomputable def scoredPos (documents : List Document) (q : Text) : List (ℝ × ℕ) :=
  ((List.range documents.length).map
    (fun i => (compute_bm25_score documents q i, i))).filter
    (fun p => decide (0 < p.1))

/-- `scores.sort(key=lambda x: x[0], reverse=True)`. -/
noncomputable def retrieveIdx (documents : List Document) (q : Text) : List (ℝ × ℕ) :=
  sortPairs (scoredPos documents q)

/-- `BM25Retriever.retrieve`: `[doc for score, doc in scores[:k]]`. -/
noncomputable def retrieve (documents : List Document) (q : Text) (k : ℤ) : List Document :=
  pySlice k ((retrieveIdx documents q).map (fun p => documents.getD p.2 default))

end BM25Retriever

/-- The hybrid retriever: the semantic branch is the external Chroma
vector-store interface (out of scope for correctness per the design), kept
abstract as a function from queries to hit lists; the keyword branch and
the reranker operate on the fixed `corpus`. -/
structure HybridRerankRetriever where
  semantic_retriever : Text → List Document
  corpus : List Document

namespace HybridRerankRetriever

/-- The deduplication key: `hash(doc.page_content[:100])`.  Python's string
hash is modelled as an injective function, i.e. by the 100-character prefix
itself. -/
def dedupKey (d : Document) : Text := d.content.take 100

/-- The worker of `HybridRerankRetriever._merge_and_deduplicate`: walk the
concatenated list keeping the set `seen` of already-emitted keys. -/
def dedupAux : List Document → List Text → List Document
  | [], _ => []
  | d :: rest, seen =>
    if dedupKey d ∈ seen then dedupAux rest seen
    else d :: dedupAux rest (dedupKey d :: seen)

/-- `HybridRerankRetriever._merge_and_deduplicate` (semantic hits first). -/
def merge_and_deduplicate (semantic_docs bm25_docs : List Document) : List Document :=
  dedupAux (semantic_docs ++ bm25_docs) []

/-- `HybridRerankRetriever.invoke`: semantic search, keyword search with the
same `k`, merge (semantic first), rerank, first `k`. -/
noncomputable def invoke (R : HybridRerankRetriever) (q : Text) (k : ℤ) : List Document :=
  pySlice k (Reranker.rerank q
    (merge_and_deduplicate (R.semantic_retriever q) (BM25Retriever.retrieve R.corpus q k)))

end HybridRerankRetriever

/-- `get_hybrid_rerank_retriever`: wires the semantic branch with
`search_kwargs={"k": 15}` and the BM25 branch/reranker over the stored
corpus.  `semantic_search q n` abstracts the Chroma retriever returning the
top-`n` hits for `q`. -/
def get_hybrid_rerank_retriever (semantic_search : Text → ℕ → List Document)
    (corpus : List Document) : HybridRerankRetriever :=
  { semantic_retriever := fun q => semantic_search q 15, corpus := corpus }

/-- Exceptions relevant to `build_vector_store`.  `configurationError` is the
error class the design document prescribes for an empty corpus;
`nameError` models Python's `NameError`. -/
inductive PyException where
  | nameError
  | configurationError
deriving DecidableEq

/-- Model of `build_vector_store`.  PDF reading/chunking is external I/O, so
the input is the list `docs` of extracted chunks; the mutable state is the
persisted vector store (the chunk list Chroma holds), `none` when no build
has happened yet.  The source does:
* `if not docs:` log a warning and `return` — no exception, prior state kept;
* otherwise delete the old store directory, build the new one from `docs`
  (the swap happens here), and finally execute `return store` — but no name
  `store` is defined anywhere in the function or module, so this raises
  `NameError` (despite the `-> None` annotation). -/
def build_vector_store (docs : List Document) (prior : Option (List Document)) :
    Option (List Document) × Except PyException Unit :=
  if docs.isEmpty then (prior, Except.ok ())
  else (some docs, Except.error PyException.nameError)

/-! ## Helper lemmas -/

theorem pySlice_coe {α : Type} (k : ℕ) (l : List α) : pySlice (k : ℤ) l = l.take k := by
  simp [pySlice]

theorem sortPairs_perm {α : Type} [LinearOrder α] (l : List (α × ℕ)) :
    (sortPairs l).Perm l :=
  List.perm_insertionSort keyLe l

theorem sortPairs_sorted {α : Type} [LinearOrder α] (l : List (α × ℕ)) :
    (sortPairs l).Pairwise keyLe :=
  List.sorted_insertionSort keyLe l

theorem sortPairs_pairwise_keyLt {α : Type} [LinearOrder α] (l : List (α × ℕ))
    (h : (l.map Prod.snd).Nodup) : (sortPairs l).Pairwise keyLt := by
  have hperm : ((sortPairs l).map Prod.snd).Perm (l.map Prod.snd) :=
    (sortPairs_perm l).map Prod.snd
  have hnd : ((sortPairs l).map Prod.snd).Nodup := (hperm.nodup_iff).mpr h
  have hne : (sortPairs l).Pairwise (fun p r => p.2 ≠ r.2) :=
    (List.pairwise_map).mp hnd
  refine ((sortPairs_sorted l).and hne).imp ?_
  rintro p r ⟨hle, hne2⟩
  rcases hle with h1 | ⟨e1, n1⟩
  · exact Or.inl h1
  · exact Or.inr ⟨e1, lt_of_le_of_ne n1 hne2⟩

theorem map_getD_range {α : Type} (l : List α) (d : α) :
    (List.range l.length).map (fun i => l.getD i d) = l := by
  induction l with
  | nil => simp
  | cons a t ih =>
    rw [List.length_cons, List.range_succ_eq_map, List.map_cons, List.map_map]
    have hfun : ((fun i => (a :: t).getD i d) ∘ Nat.succ) = (fun i => t.getD i d) := by
      funext i
      simp [List.getD_cons_succ]
    rw [hfun, ih]
    simp [List.getD_cons_zero]

namespace HybridRerankRetriever

theorem dedupAux_sublist (l : List Document) :
    ∀ seen : List Text, (dedupAux l seen).Sublist l := by
  induction l with
  | nil => intro seen; simp [dedupAux]
  | cons x rest ih =>
    intro seen
    by_cases hx : dedupKey x ∈ seen
    · rw [dedupAux, if_pos hx]
      exact (ih seen).cons x
    · rw [dedupAux, if_neg hx]
      exact (ih (dedupKey x :: seen)).cons₂ x

theorem dedupAux_spec (l : List Document) :
    ∀ (seen : List Text) (d : Document), d ∈ dedupAux l seen →
      dedupKey d ∉ seen ∧ l.find? (fun e => dedupKey e == dedupKey d) = some d := by
  induction l with
  | nil => intro seen d h; simp [dedupAux] at h
  | cons x rest ih =>
    intro seen d h
    by_cases hx : dedupKey x ∈ seen
    · rw [dedupAux, if_pos hx] at h
      obtain ⟨hns, hfind⟩ := ih seen d h
      refine ⟨hns, ?_⟩
      rw [List.find?_cons_of_neg, hfind]
      simp only [beq_iff_eq]
      intro he
      exact hns (he ▸ hx)
    · rw [dedupAux, if_neg hx] at h
      rcases List.mem_cons.mp h with rfl | hmem
      · exact ⟨hx, by rw [List.find?_cons_of_pos]; simp⟩
      · obtain ⟨hns, hfind⟩ := ih _ d hmem
        refine ⟨fun hs => hns (List.mem_cons_of_mem _ hs), ?_⟩
        rw [List.find?_cons_of_neg, hfind]
        simp only [beq_iff_eq]
        intro he
        exact hns (by rw [← he]; exact List.mem_cons_self _ _)

theorem dedupAux_pairwise (l : List Document) :
    ∀ seen : List Text,
      (dedupAux l seen).Pairwise (fun d e => dedupKey d ≠ dedupKey e) := by
  induction l with
  | nil => intro seen; simp [dedupAux]
  | cons x rest ih =>
    intro seen
    by_cases hx : dedupKey x ∈ seen
    · rw [dedupAux, if_pos hx]
      exact ih seen
    · rw [dedupAux, if_neg hx]
      refine List.Pairwise.cons ?_ (ih _)
      intro e he heq
      exact (dedupAux_spec rest _ e he).1 (by rw [← heq]; exact List.mem_cons_self _ _)

end HybridRerankRetriever

/-- C6: for all document lists A and B, `merge(A, B)` deduplicates by the
first-100-character prefix of the content: the survivors form a sublist of
`A ++ B` (so relative order within each input list is preserved and the
semantic list is processed first), no two survivors share a prefix, and
every survivor is the first occurrence of its prefix in `A ++ B`. -/
theorem claim_C6_merge_dedup (A B : List Document) :
    (HybridRerankRetriever.merge_and_deduplicate A B).Sublist (A ++ B)
    ∧ (HybridRerankRetriever.merge_and_deduplicate A B).Pairwise
        (fun d e => HybridRerankRetriever.dedupKey d ≠ HybridRerankRetriever.dedupKey e)
    ∧ (∀ d ∈ HybridRerankRetriever.merge_and_deduplicate A B,
        (A ++ B).find?
          (fun e => HybridRerankRetriever.dedupKey e == HybridRerankRetriever.dedupKey d)
          = some d)
    ∧ (∀ d : Document, HybridRerankRetriever.dedupKey d = d.content.take 100) := by
  refine ⟨HybridRerankRetriever.dedupAux_sublist _ [],
    HybridRerankRetriever.dedupAux_pairwise _ [],
    fun d hd => (HybridRerankRetriever.dedupAux_spec _ [] d hd).2,
    fun d => rfl⟩

/-- Witness for C6 at a concrete input: `[da, db] ++ [da']` where `da'`
duplicates `da`'s prefix; the merge keeps the first occurrences `[da, db]`,
and the first-occurrence property instantiates at `da`. -/
theorem claim_C6_merge_dedup_witness :
    HybridRerankRetriever.merge_and_deduplicate
        [mkDoc "ab", mkDoc "cd"] [mkDoc "ab"]
      = [mkDoc "ab", mkDoc "cd"]
    ∧ ([mkDoc "ab", mkDoc "cd"] ++ [mkDoc "ab"]).find?
        (fun e => HybridRerankRetriever.dedupKey e
          == HybridRerankRetriever.dedupKey (mkDoc "ab")) = some (mkDoc "ab") :=
  ⟨by decide,
   (claim_C6_merge_dedup [mkDoc "ab", mkDoc "cd"] [mkDoc "ab"]).2.2.1 (mkDoc "ab") (by decide)⟩

namespace Reranker

theorem compute_semantic_score_nonneg (q c : Text) : 0 ≤ compute_semantic_score q c := by
  unfold compute_semantic_score
  split
  · exact le_refl 0
  · positivity

theorem compute_semantic_score_le_one (q c : Text) : compute_semantic_score q c ≤ 1 := by
  unfold compute_semantic_score
  split
  · exact zero_le_one
  · rename_i h
    have hpos : 0 < ((charSet q).card : ℚ) := by
      exact_mod_cast Finset.card_pos.mpr (Finset.nonempty_iff_ne_empty.mpr h)
    rw [div_le_one hpos]
    exact_mod_cast Finset.card_le_card Finset.inter_subset_left

theorem compute_keyword_score_nonneg (q c : Text) : 0 ≤ compute_keyword_score q c :=
  le_min (by positivity) zero_le_one

theorem compute_keyword_score_le_one (q c : Text) : compute_keyword_score q c ≤ 1 :=
  min_le_right _ _

theorem compute_relevance_boost_nonneg (q c : Text) : 0 ≤ compute_relevance_boost q c := by
  refine le_min ?_ zero_le_one
  refine add_nonneg (add_nonneg (add_nonneg ?_ ?_) ?_) ?_ <;> split <;> norm_num

theorem compute_relevance_boost_le_one (q c : Text) : compute_relevance_boost q c ≤ 1 :=
  min_le_right _ _

theorem compute_quality_score_mem (c : Text) :
    (0.2 : ℚ) ≤ compute_quality_score c ∧ compute_quality_score c ≤ 0.8 := by
  unfold compute_quality_score
  split_ifs <;> norm_num

theorem detect_spam_content_eq (c : Text) :
    detect_spam_content c = min 1 ((spamCount c : ℚ) * 0.3) := by
  unfold detect_spam_content
  split_ifs with h
  · rfl
  · have h0 : spamCount c = 0 := by omega
    rw [h0]
    norm_num

theorem detect_spam_content_nonneg (c : Text) : 0 ≤ detect_spam_content c := by
  rw [detect_spam_content_eq]
  exact le_min zero_le_one (by positivity)

theorem detect_spam_content_le_one (c : Text) : detect_spam_content c ≤ 1 := by
  rw [detect_spam_content_eq]
  exact min_le_left _ _

theorem detect_spam_content_ge_of_two (c : Text) (h : 2 ≤ spamCount c) :
    (0.6 : ℚ) ≤ detect_spam_content c := by
  rw [detect_spam_content_eq]
  have h2 : (2 : ℚ) ≤ (spamCount c : ℚ) := by exact_mod_cast h
  refine le_min (by norm_num) (by linarith)

end Reranker

/-- C3: the composite reranker score is exactly the weighted sum of the five
signals with weights 0.35 / 0.25 / 0.2 / 0.15 / −0.5 clamped into `[0, 1]`,
hence `0 ≤ score(q, d) ≤ 1` for arbitrary query and document. -/
theorem claim_C3_score_weighted_clamped (q : Text) (d : Document) :
    Reranker.compute_relevance_score q d
      = max 0 (min
        (Reranker.compute_semantic_score q d.content * (0.35 : ℚ)
         + Reranker.compute_keyword_score q d.content * (0.25 : ℚ)
         + Reranker.compute_relevance_boost q d.content * (0.2 : ℚ)
         + Reranker.compute_quality_score d.content * (0.15 : ℚ)
         + Reranker.detect_spam_content d.content * (-0.5 : ℚ)) 1)
    ∧ 0 ≤ Reranker.compute_relevance_score q d
    ∧ Reranker.compute_relevance_score q d ≤ 1 :=
  ⟨rfl, le_max_left 0 _, max_le (by norm_num) (min_le_right _ _)⟩

/-- C8: spam detection penalizes exactly `min(1, count * 0.3)`, and with all
four positive signals equal, a document containing at least two spam phrases
scores strictly below one containing none. -/
theorem claim_C8_spam_strictly_lower :
    (∀ c : Text,
      Reranker.detect_spam_content c = min 1 ((Reranker.spamCount c : ℚ) * 0.3))
    ∧ ∀ (q : Text) (d1 d2 : Document),
        2 ≤ Reranker.spamCount d1.content →
        Reranker.spamCount d2.content = 0 →
        Reranker.compute_semantic_score q d1.content
          = Reranker.compute_semantic_score q d2.content →
        Reranker.compute_keyword_score q d1.content
          = Reranker.compute_keyword_score q d2.content →
        Reranker.compute_relevance_boost q d1.content
          = Reranker.compute_relevance_boost q d2.content →
        Reranker.compute_quality_score d1.content
          = Reranker.compute_quality_score d2.content →
        Reranker.compute_relevance_score q d1 < Reranker.compute_relevance_score q d2 := by
  refine ⟨Reranker.detect_spam_content_eq, ?_⟩
  intro q d1 d2 hs1 hs2 e1 e2 e3 e4
  have hP2 : Reranker.detect_spam_content d2.content = 0 := by
    rw [Reranker.detect_spam_content_eq, hs2]
    norm_num
  have hP1a : (0.6 : ℚ) ≤ Reranker.detect_spam_content d1.content :=
    Reranker.detect_spam_content_ge_of_two _ hs1
  have hS0 := Reranker.compute_semantic_score_nonneg q d2.content
  have hS1 := Reranker.compute_semantic_score_le_one q d2.content
  have hK0 := Reranker.compute_keyword_score_nonneg q d2.content
  have hK1 := Reranker.compute_keyword_score_le_one q d2.content
  have hR0 := Reranker.compute_relevance_boost_nonneg q d2.content
  have hR1 := Reranker.compute_relevance_boost_le_one q d2.content
  have hQ := Reranker.compute_quality_score_mem d2.content
  simp only [Reranker.compute_relevance_score, e1, e2, e3, e4, hP2,
    Reranker.weight_semantic_score, Reranker.weight_keyword_score,
    Reranker.weight_relevance_boost, Reranker.weight_quality_score,
    Reranker.weight_spam_penalty]
  set S := Reranker.compute_semantic_score q d2.content
  set K := Reranker.compute_keyword_score q d2.content
  set R := Reranker.compute_relevance_boost q d2.content
  set Q := Reranker.compute_quality_score d2.content
  set P := Reranker.detect_spam_content d1.content
  have hA_lb : (0.03 : ℚ) ≤ S * 0.35 + K * 0.25 + R * 0.2 + Q * 0.15 := by
    nlinarith [hQ.1, hS0, hK0, hR0]
  have hA_ub : S * 0.35 + K * 0.25 + R * 0.2 + Q * 0.15 ≤ (0.92 : ℚ) := by
    nlinarith [hQ.2, hS1, hK1, hR1]
  have hmin2 : min (S * 0.35 + K * 0.25 + R * 0.2 + Q * 0.15 + 0 * (-0.5)) 1
      = S * 0.35 + K * 0.25 + R * 0.2 + Q * 0.15 := by
    rw [min_eq_left (by linarith)]
    ring
  have hmin1 : min (S * 0.35 + K * 0.25 + R * 0.2 + Q * 0.15 + P * (-0.5)) 1
      = S * 0.35 + K * 0.25 + R * 0.2 + Q * 0.15 + P * (-0.5) :=
    min_eq_left (by linarith)
  rw [hmin1, hmin2]
  have hmax2 : max (0 : ℚ) (S * 0.35 + K * 0.25 + R * 0.2 + Q * 0.15)
      = S * 0.35 + K * 0.25 + R * 0.2 + Q * 0.15 := max_eq_right (by linarith)
  rw [hmax2]
  exact max_lt (by linarith) (by linarith)

/-- Witness for C8: a document made of two spam phrases ("添加微信" and
"领取" both occur in it) versus a clean one-character document, under the
empty query; all four positive signals agree (semantic 0, keyword 0,
boost 0, quality 0.2). -/
theorem claim_C8_spam_strictly_lower_witness :
    Reranker.compute_relevance_score [] (mkDoc "添加微信领取")
      < Reranker.compute_relevance_score [] (mkDoc "y") :=
  claim_C8_spam_strictly_lower.2 [] (mkDoc "添加微信领取") (mkDoc "y")
    (by decide) (by decide) rfl rfl rfl rfl

theorem scored_docs_snd (q : Text) (docs : List Document) :
    (Reranker.scored_docs q docs).map Prod.snd = List.range docs.length := by
  unfold Reranker.scored_docs
  rw [List.map_map]
  exact List.map_id'' (fun i => rfl) _

/-- C7: `rerank` returns a permutation of its input (same length, same
multiset), and the scored list it reads off is pairwise "score strictly
descending, or scores equal and original position strictly increasing" —
i.e. descending order with stable ties; every scored entry carries the
composite score of the document at its position. -/
theorem claim_C7_rerank_desc_stable (q : Text) (docs : List Document) :
    (Reranker.rerank q docs).Perm docs
    ∧ (Reranker.rerankSorted q docs).Pairwise keyLt
    ∧ Reranker.rerank q docs
        = (Reranker.rerankSorted q docs).map (fun p => docs.getD p.2 default)
    ∧ ∀ p ∈ Reranker.rerankSorted q docs,
        p.1 = Reranker.compute_relevance_score q (docs.getD p.2 default)
        ∧ p.2 < docs.length := by
  refine ⟨?_, ?_, rfl, ?_⟩
  · have hperm : (Reranker.rerankSorted q docs).Perm (Reranker.scored_docs q docs) :=
      sortPairs_perm _
    have h1 := hperm.map (fun p : ℚ × ℕ => docs.getD p.2 default)
    have h2 : (Reranker.scored_docs q docs).map (fun p => docs.getD p.2 default) = docs := by
      unfold Reranker.scored_docs
      rw [List.map_map]
      exact map_getD_range docs default
    rw [h2] at h1
    exact h1
  · exact sortPairs_pairwise_keyLt _
      (by rw [scored_docs_snd]; exact List.nodup_range _)
  · intro p hp
    have hmem : p ∈ Reranker.scored_docs q docs := (sortPairs_perm _).mem_iff.mp hp
    unfold Reranker.scored_docs at hmem
    rw [List.mem_map] at hmem
    obtain ⟨i, hi, rfl⟩ := hmem
    exact ⟨rfl, List.mem_range.mp hi⟩

/-- Witness for C7 on a singleton corpus: the reranked list is a permutation
of the input, and the scored-entry property instantiated at its single
element. -/
theorem claim_C7_rerank_desc_stable_witness :
    (Reranker.rerank "a".data [mkDoc "b"]).Perm [mkDoc "b"]
    ∧ ((Reranker.compute_relevance_score "a".data
          (([mkDoc "b"] : List Document).getD 0 default), (0 : ℕ)).1
        = Reranker.compute_relevance_score "a".data
            (([mkDoc "b"] : List Document).getD 0 default)
        ∧ (Reranker.compute_relevance_score "a".data
            (([mkDoc "b"] : List Document).getD 0 default), (0 : ℕ)).2
          < ([mkDoc "b"] : List Document).length) :=
  ⟨(claim_C7_rerank_desc_stable "a".data [mkDoc "b"]).1,
   (claim_C7_rerank_desc_stable "a".data [mkDoc "b"]).2.2.2 _ (List.Mem.head _)⟩

namespace BM25Retriever

theorem compute_bm25_score_of_no_vocab (documents : List Document) (q : Text) (i : ℕ)
    (h : ∀ t ∈ tokenize q, df documents t = 0) :
    compute_bm25_score documents q i = 0 := by
  unfold compute_bm25_score
  have hgen : ∀ (L : Text) (s : ℝ), (∀ t ∈ L, df documents t = 0) →
      L.foldl (scoreStep documents i) s = s := by
    intro L
    induction L with
    | nil => intro s _; rfl
    | cons t rest ih =>
      intro s hL
      rw [List.foldl_cons]
      have ht : df documents t = 0 := hL t (List.mem_cons_self t rest)
      rw [show scoreStep documents i s t = s from by rw [scoreStep, if_pos ht]]
      exact ih s (fun u hu => hL u (List.mem_cons_of_mem t hu))
  exact hgen (tokenize q) 0 h

theorem compute_bm25_score_of_empty_query (documents : List Document) (i : ℕ)
    (q : Text) (h : tokenize q = []) : compute_bm25_score documents q i = 0 := by
  unfold compute_bm25_score
  rw [h]
  rfl

theorem scoredPos_eq_nil (documents : List Document) (q : Text)
    (h : ∀ i, compute_bm25_score documents q i = 0) : scoredPos documents q = [] := by
  unfold scoredPos
  rw [List.filter_eq_nil_iff]
  intro p hp
  rw [List.mem_map] at hp
  obtain ⟨i, _, rfl⟩ := hp
  simp [h i]

theorem retrieve_eq_nil (documents : List Document) (q : Text) (k : ℤ)
    (h : ∀ i, compute_bm25_score documents q i = 0) : retrieve documents q k = [] := by
  unfold retrieve retrieveIdx sortPairs
  rw [scoredPos_eq_nil documents q h]
  simp [pySlice]

end BM25Retriever

/-- C5: `BM25Retriever.retrieve` sorts exactly the positive-score documents
(the `score > 0` filter excludes every zero-score document) in descending
score order with ties broken by corpus position (first-inserted wins), and
returns the documents of the first `k` sorted entries; an empty query, or a
query none of whose tokens occurs in the vocabulary, yields the empty list
rather than an error. -/
theorem claim_C5_bm25_retrieve_topk (docs : List Document) (q : Text) (k : ℕ) :
    (BM25Retriever.retrieveIdx docs q).Perm (BM25Retriever.scoredPos docs q)
    ∧ (∀ p ∈ BM25Retriever.scoredPos docs q,
        0 < p.1 ∧ p.1 = BM25Retriever.compute_bm25_score docs q p.2 ∧ p.2 < docs.length)
    ∧ (BM25Retriever.retrieveIdx docs q).Pairwise keyLt
    ∧ BM25Retriever.retrieve docs q (k : ℤ)
        = ((BM25Retriever.retrieveIdx docs q).take k).map (fun p => docs.getD p.2 default)
    ∧ (tokenize q = [] → BM25Retriever.retrieve docs q (k : ℤ) = [])
    ∧ ((∀ t ∈ tokenize q, BM25Retriever.df docs t = 0) →
        BM25Retriever.retrieve docs q (k : ℤ) = []) := by
  refine ⟨sortPairs_perm _, ?_, ?_, ?_, ?_, ?_⟩
  · intro p hp
    rw [BM25Retriever.scoredPos, List.mem_filter] at hp
    obtain ⟨hmem, hpos⟩ := hp
    rw [List.mem_map] at hmem
    obtain ⟨i, hi, rfl⟩ := hmem
    exact ⟨of_decide_eq_true hpos, rfl, List.mem_range.mp hi⟩
  · refine sortPairs_pairwise_keyLt _ ?_
    have hsub : (BM25Retriever.scoredPos docs q).Sublist
        ((List.range docs.length).map
          (fun i => (BM25Retriever.compute_bm25_score docs q i, i))) :=
      List.filter_sublist _
    have hsnd := hsub.map Prod.snd
    rw [List.map_map] at hsnd
    rw [show (Prod.snd ∘ fun i : ℕ => (BM25Retriever.compute_bm25_score docs q i, i))
        = fun i : ℕ => i from rfl, List.map_id'] at hsnd
    exact hsnd.nodup (List.nodup_range _)
  · rw [BM25Retriever.retrieve, pySlice_coe, List.map_take]
  · intro h
    exact BM25Retriever.retrieve_eq_nil docs q _
      (fun i => BM25Retriever.compute_bm25_score_of_empty_query docs i q h)
  · intro h
    exact BM25Retriever.retrieve_eq_nil docs q _
      (fun i => BM25Retriever.compute_bm25_score_of_no_vocab docs q i h)

/-- Witness for C5: a query ("ab") with zero vocabulary overlap with the
corpus (one document "你好") retrieves the empty list. -/
theorem claim_C5_bm25_retrieve_topk_witness :
    (∀ t ∈ tokenize "ab".data, BM25Retriever.df [mkDoc "你好"] t = 0)
    ∧ BM25Retriever.retrieve [mkDoc "你好"] "ab".data ((3 : ℕ) : ℤ) = [] :=
  ⟨by decide,
   (claim_C5_bm25_retrieve_topk [mkDoc "你好"] "ab".data 3).2.2.2.2.2 (by decide)⟩

/-- The IDF argument simplifies:
`(n - df + 0.5)/(df + 0.5) + 1 = (n + 1)/(df + 0.5)`, so
`idf = log(n + 1) - log(df + 0.5)`. -/
theorem idf_eq_log_sub (documents : List Document) (t : Char) :
    BM25Retriever.idf documents t
      = Real.log ((documents.length : ℝ) + 1)
        - Real.log ((BM25Retriever.df documents t : ℝ) + 0.5) := by
  unfold BM25Retriever.idf
  have hd : ((BM25Retriever.df documents t : ℝ) + 0.5) ≠ 0 := by positivity
  have harg : ((documents.length : ℝ) - (BM25Retriever.df documents t : ℝ) + 0.5)
      / ((BM25Retriever.df documents t : ℝ) + 0.5) + 1
      = ((documents.length : ℝ) + 1) / ((BM25Retriever.df documents t : ℝ) + 0.5) := by
    field_simp
    ring
  rw [harg, Real.log_div (by positivity) hd]

/-- C9: the BM25 IDF weight is monotonically non-increasing in document
frequency, and (for a corpus with more than one document) a token occurring
in every document gets a strictly lower IDF than a token occurring in
exactly one. -/
theorem claim_C9_idf_antitone_in_df :
    (∀ (docs : List Document) (t1 t2 : Char),
        BM25Retriever.df docs t1 ≤ BM25Retriever.df docs t2 →
        BM25Retriever.idf docs t2 ≤ BM25Retriever.idf docs t1)
    ∧ (∀ (docs : List Document) (t1 t2 : Char),
        1 < docs.length →
        BM25Retriever.df docs t1 = docs.length →
        BM25Retriever.df docs t2 = 1 →
        BM25Retriever.idf docs t1 < BM25Retriever.idf docs t2) := by
  constructor
  · intro docs t1 t2 h
    rw [idf_eq_log_sub, idf_eq_log_sub]
    have hc : ((BM25Retriever.df docs t1 : ℝ)) ≤ (BM25Retriever.df docs t2 : ℝ) := by
      exact_mod_cast h
    have hlog : Real.log ((BM25Retriever.df docs t1 : ℝ) + 0.5)
        ≤ Real.log ((BM25Retriever.df docs t2 : ℝ) + 0.5) :=
      Real.log_le_log (by positivity) (by linarith)
    linarith
  · intro docs t1 t2 hn h1 h2
    rw [idf_eq_log_sub, idf_eq_log_sub, h1, h2]
    push_cast
    have hgt : (1 : ℝ) < (docs.length : ℝ) := by exact_mod_cast hn
    have hlog : Real.log ((1 : ℝ) + 0.5) < Real.log ((docs.length : ℝ) + 0.5) := by
      apply Real.log_lt_log (by norm_num)
      linarith
    linarith

/-- Witness for C9 on the corpus ["你", "你好"]: the token '你' occurs in
both documents (df = 2 = N), the token '好' in exactly one (df = 1), so
idf('你') ≤ idf('好') and strictly so. -/
theorem claim_C9_idf_antitone_in_df_witness :
    BM25Retriever.df [mkDoc "你", mkDoc "你好"] '好'
      ≤ BM25Retriever.df [mkDoc "你", mkDoc "你好"] '你'
    ∧ BM25Retriever.idf [mkDoc "你", mkDoc "你好"] '你'
      ≤ BM25Retriever.idf [mkDoc "你", mkDoc "你好"] '好'
    ∧ BM25Retriever.idf [mkDoc "你", mkDoc "你好"] '你'
      < BM25Retriever.idf [mkDoc "你", mkDoc "你好"] '好' :=
  ⟨by decide,
   claim_C9_idf_antitone_in_df.1 _ '好' '你' (by decide),
   claim_C9_idf_antitone_in_df.2 _ '你' '好' (by decide) (by decide) (by decide)⟩

/-- Counterexample to C2: for the corpus ["你好"], `document_lengths` is
`[1]` (the `len(content.split())` word count) while the tokenizer produces
2 tokens (the two non-whitespace characters), so the stored entry is not
the tokenizer's token count. -/
theorem claim_C2_doc_lengths_counterexample :
    BM25Retriever.doc_lengths [mkDoc "你好"] = [1]
    ∧ (tokenize (mkDoc "你好").content).length = 2
    ∧ BM25Retriever.doc_lengths [mkDoc "你好"]
        ≠ [(tokenize (mkDoc "你好").content).length] :=
  ⟨by decide, by decide, by decide⟩

/-- C2 (amended): each entry of `document_lengths` is the *whitespace-split
word count* `len(content.split())` of the corresponding document (not the
character tokenizer's token count), `average_document_length` is the
arithmetic mean of those word counts, and exactly these two quantities are the
`|d|` and `avgdl` appearing in the BM25 denominator. -/
theorem claim_C2_doc_lengths_amended (docs : List Document) (i : Fin docs.length) (q : Text) :
    (BM25Retriever.doc_lengths docs).getD i 0 = pyWordCount (docs.get i).content
    ∧ BM25Retriever.avg_doc_len docs
        = ((docs.map (fun d => (pyWordCount d.content : ℝ))).sum) / (docs.length : ℝ)
    ∧ BM25Retriever.compute_bm25_score docs q i
        = (tokenize q).foldl
            (fun s t =>
              if BM25Retriever.df docs t = 0 then s
              else if BM25Retriever.tfCount docs i t = 0 then s
              else s + BM25Retriever.idf docs t
                  * ((BM25Retriever.tfCount docs i t : ℝ) * (BM25Retriever.k1 + 1))
                  / ((BM25Retriever.tfCount docs i t : ℝ)
                     + BM25Retriever.k1 * (1 - BM25Retriever.b
                         + BM25Retriever.b * (pyWordCount (docs.get i).content : ℝ)
                             / BM25Retriever.avg_doc_len docs)))
            0 := by
  have hlen : (BM25Retriever.doc_lengths docs).getD i 0 = pyWordCount (docs.get i).content := by
    have hi : i.val < docs.length := i.isLt
    simp [BM25Retriever.doc_lengths, List.getD_eq_getElem?_getD, List.getElem?_map,
      List.getElem?_eq_getElem, hi]
  refine ⟨hlen, ?_, ?_⟩
  · unfold BM25Retriever.avg_doc_len BM25Retriever.doc_lengths
    rw [Nat.cast_list_sum, List.map_map]
    rfl
  · unfold BM25Retriever.compute_bm25_score
    congr 1
    funext s t
    rw [BM25Retriever.scoreStep, hlen]

theorem rerank_perm (q : Text) (docs : List Document) :
    (Reranker.rerank q docs).Perm docs := by
  have hperm : (Reranker.rerankSorted q docs).Perm (Reranker.scored_docs q docs) :=
    sortPairs_perm _
  have h1 := hperm.map (fun p : ℚ × ℕ => docs.getD p.2 default)
  have h2 : (Reranker.scored_docs q docs).map (fun p => docs.getD p.2 default) = docs := by
    unfold Reranker.scored_docs
    rw [List.map_map]
    exact map_getD_range docs default
  rw [h2] at h1
  exact h1

/-- C1: the hybrid retriever built by `get_hybrid_rerank_retriever` performs
exactly semantic search with k = 15, BM25 retrieval with the caller's `k`,
merge with the semantic hits first, rerank, and first-`k` truncation;
consequently it returns at most `k` documents, all drawn from the
deduplicated merge of the two hit lists. -/
theorem claim_C1_hybrid_invoke_pipeline (semantic_search : Text → ℕ → List Document)
    (corpus : List Document) (q : Text) (k : ℕ) :
    (get_hybrid_rerank_retriever semantic_search corpus).invoke q (k : ℤ)
      = (Reranker.rerank q
          (HybridRerankRetriever.merge_and_deduplicate (semantic_search q 15)
            (BM25Retriever.retrieve corpus q (k : ℤ)))).take k
    ∧ ((get_hybrid_rerank_retriever semantic_search corpus).invoke q (k : ℤ)).length ≤ k
    ∧ ∀ d ∈ (get_hybrid_rerank_retriever semantic_search corpus).invoke q (k : ℤ),
        d ∈ HybridRerankRetriever.merge_and_deduplicate (semantic_search q 15)
            (BM25Retriever.retrieve corpus q (k : ℤ)) := by
  have h0 : (get_hybrid_rerank_retriever semantic_search corpus).invoke q (k : ℤ)
      = (Reranker.rerank q
          (HybridRerankRetriever.merge_and_deduplicate (semantic_search q 15)
            (BM25Retriever.retrieve corpus q (k : ℤ)))).take k := by
    show pySlice (k : ℤ) _ = _
    rw [pySlice_coe]
    rfl
  refine ⟨h0, ?_, ?_⟩
  · rw [h0]
    exact List.length_take_le k _
  · intro d hd
    rw [h0] at hd
    have hd2 := List.take_subset k _ hd
    exact (rerank_perm q _).mem_iff.mp hd2

/-- Witness for C1: stub semantic branch returning one document, empty
corpus, k = 1; the single returned document indeed lies in the merge. -/
theorem claim_C1_hybrid_invoke_pipeline_witness :
    ((get_hybrid_rerank_retriever (fun _ _ => [mkDoc "x"]) []).invoke
        "a".data ((1 : ℕ) : ℤ)).length ≤ 1
    ∧ mkDoc "x" ∈ HybridRerankRetriever.merge_and_deduplicate
        ((fun (_ : Text) (_ : ℕ) => [mkDoc "x"]) "a".data 15)
        (BM25Retriever.retrieve [] "a".data ((1 : ℕ) : ℤ)) :=
  ⟨(claim_C1_hybrid_invoke_pipeline (fun _ _ => [mkDoc "x"]) [] "a".data 1).2.1,
   (claim_C1_hybrid_invoke_pipeline (fun _ _ => [mkDoc "x"]) [] "a".data 1).2.2
     (mkDoc "x") (List.Mem.head _)⟩

/-- Counterexample to C10: neither entry point fails on an empty query or a
negative `k`; both return plain (empty) result lists at exactly those
inputs — the source has no validation or raise on these paths at all. -/
theorem claim_C10_no_fail_fast_counterexample :
    BM25Retriever.retrieve [mkDoc "你好"] [] (-1) = []
    ∧ (get_hybrid_rerank_retriever (fun _ _ => []) [mkDoc "你好"]).invoke [] (-1) = [] := by
  have h1 : BM25Retriever.retrieve [mkDoc "你好"] [] (-1) = [] :=
    BM25Retriever.retrieve_eq_nil _ _ _
      (fun i => BM25Retriever.compute_bm25_score_of_empty_query _ i [] rfl)
  refine ⟨h1, ?_⟩
  show pySlice (-1) (Reranker.rerank []
      (HybridRerankRetriever.merge_and_deduplicate []
        (BM25Retriever.retrieve [mkDoc "你好"] [] (-1)))) = []
  rw [h1]
  rfl

/-- C10 (amended): for every corpus and every integer `k` (negative ones
included), an empty query makes `BM25Retriever.retrieve` return the empty
list and makes `invoke` return the `k`-slice of the reranked deduplicated
semantic hits; no error is raised at either entry point (both functions are
total — the source performs no input validation). -/
theorem claim_C10_no_validation_amended (docs : List Document) (k : ℤ)
    (semantic_search : Text → ℕ → List Document) :
    BM25Retriever.retrieve docs [] k = []
    ∧ (get_hybrid_rerank_retriever semantic_search docs).invoke [] k
        = pySlice k (Reranker.rerank []
            (HybridRerankRetriever.merge_and_deduplicate (semantic_search [] 15) [])) := by
  have h1 : BM25Retriever.retrieve docs [] k = [] :=
    BM25Retriever.retrieve_eq_nil _ _ _
      (fun i => BM25Retriever.compute_bm25_score_of_empty_query _ i [] rfl)
  refine ⟨h1, ?_⟩
  show pySlice k (Reranker.rerank []
      (HybridRerankRetriever.merge_and_deduplicate (semantic_search [] 15)
        (BM25Retriever.retrieve docs [] k))) = _
  rw [h1]

/-- C4 (code bug): on an empty corpus `build_vector_store` logs and returns
`None` without touching the prior store and without raising
`ConfigurationError`; on any non-empty corpus it swaps the store and then
raises `NameError` at `return store` (`store` is never defined), despite the
`-> None` annotation; in particular no input ever produces
`ConfigurationError`. -/
theorem claim_C4_build_vector_store_behavior :
    build_vector_store [] (some [mkDoc "你好"]) = (some [mkDoc "你好"], Except.ok ())
    ∧ (build_vector_store [mkDoc "你好"] none).2 = Except.error PyException.nameError
    ∧ ∀ (docs : List Document) (prior : Option (List Document)),
        (build_vector_store docs prior).2 = Except.ok ()
        ∨ (build_vector_store docs prior).2 = Except.error PyException.nameError := by
  refine ⟨rfl, rfl, ?_⟩
  intro docs prior
  unfold build_vector_store
  split
  · exact Or.inl rfl
  · exact Or.inr rfl
